import Mathlib

/-!
Verification of the interactive viewport and metadata-indexed overlay engine
of the ExpertAssist frontend. Every definition below is a shallow embedding
translated from the TypeScript source: numbers are modelled as rationals
(the source uses IEEE doubles; a NaN-producing parse is modelled as
`Option.none`), DOM maps as association lists with JS `Map.set` semantics,
and DOM trees as flat element lists with the fields the embedded operations
read or write.
-/

attribute [local semireducible] Rat.mul Rat.add Rat.sub Rat.inv

/-- A rectangle in diagram coordinate space, as used by the pan/zoom hook
(`ViewBox` in `src/frontend/src/types.ts`): fields `x y w h`. -/
structure ViewBox where
  x : ℚ
  y : ℚ
  w : ℚ
  h : ℚ
deriving DecidableEq

/-- The new rectangle computed by the wheel-zoom animation-frame callback in
`usePanZoom.ts` (lines 185-190): given the current rectangle `vb`, the cursor
position `p` converted to diagram space, and the accumulated multiplicative
scale `s`, it is
`{ x + (p.x - x)*(1 - s), y + (p.y - y)*(1 - s), w*s, h*s }`. -/
def wheelZoomRect (vb : ViewBox) (p : ℚ × ℚ) (s : ℚ) : ViewBox :=
  { x := vb.x + (p.1 - vb.x) * (1 - s)
  , y := vb.y + (p.2 - vb.y) * (1 - s)
  , w := vb.w * s
  , h := vb.h * s }

/-- Text-visibility show threshold `TEXT_SHOW_RATIO = 0.45` from
`usePanZoom.ts` line 51. -/
def textShowThreshold : ℚ := 45 / 100

/-- Text-visibility hide threshold `TEXT_HIDE_RATIO = 0.55` from
`usePanZoom.ts` line 50. -/
def textHideThreshold : ℚ := 55 / 100

/-- The relative size `Math.max(vb.w, vb.h) / origMax` computed by
`applyViewBox` in `usePanZoom.ts` line 75, where `origMax` is the larger
dimension of the initial rectangle. -/
def viewFrac (origMax : ℚ) (vb : ViewBox) : ℚ :=
  max vb.w vb.h / origMax

/-- One step of the large-grid text-visibility state machine from
`applyViewBox` in `usePanZoom.ts` lines 75-82: `hidden` is the current value
of `textHiddenRef`; the result is its value after applying rectangle `vb`.
Show (return `false`) when currently hidden and the relative size drops
strictly below `0.45`; hide (return `true`) when currently shown and the
relative size is at least `0.55`; otherwise keep the current state. -/
def textStep (origMax : ℚ) (hidden : Bool) (vb : ViewBox) : Bool :=
  let r := viewFrac origMax vb
  if hidden = true ∧ r < textShowThreshold then false
  else if hidden = false ∧ textHideThreshold ≤ r then true
  else hidden

/-- The text-visibility state after a sequence of applied rectangles:
`applyViewBox` is invoked once per animation frame, so the state evolves by
folding `textStep` over the rectangle sequence. -/
def textRun (origMax : ℚ) (hidden : Bool) (vbs : List ViewBox) : Bool :=
  vbs.foldl (textStep origMax) hidden

/-- The mutable state owned by one `usePanZoom` instance (one diagram slot):
`live` is `viewBoxRef.current`, `committed` is the React `viewBox` state,
`svgPresent`/`containerPresent` record whether `svgElRef.current` and
`svgRef.current` are non-null (the rendered tree), `largeGrid` whether the
svg element carries the `data-large-grid` attribute, `domVB` the `viewBox`
attribute painted on the svg element, `origMax` is `initialMaxDimRef`,
`textHidden` is `textHiddenRef`, `pendingScale`/`pendingCursor` the wheel
accumulators, and `dragging`/`startPt`/`pendingPt`/`interacting` the drag
bookkeeping. Timer and animation-frame handles are not part of the state;
the scheduled callbacks are modelled as the explicit step functions
`wheelFrameS` and `dragFrameS`. -/
structure PZState where
  live : Option ViewBox
  committed : Option ViewBox
  svgPresent : Bool
  containerPresent : Bool
  largeGrid : Bool
  domVB : Option ViewBox
  origMax : Option ℚ
  textHidden : Bool
  pendingScale : ℚ
  pendingCursor : ℚ × ℚ
  dragging : Bool
  startPt : ℚ × ℚ
  pendingPt : ℚ × ℚ
  interacting : Bool
deriving DecidableEq

/-- The state of a freshly mounted hook before any diagram loads: all refs
null, text hidden by default, wheel scale accumulator at `1`. -/
def initState : PZState :=
  { live := none, committed := none, svgPresent := false
  , containerPresent := false, largeGrid := false, domVB := none
  , origMax := none, textHidden := true, pendingScale := 1
  , pendingCursor := (0, 0), dragging := false, startPt := (0, 0)
  , pendingPt := (0, 0), interacting := false }

/-- `applyViewBox` from `usePanZoom.ts` lines 62-91: paint the rectangle on
the svg element when both are present, then run the large-grid
text-visibility hysteresis. The JS truthiness test `if (origMax)` is false
for `0`, hence the explicit zero case; when `origMax` is absent or zero the
code forces text hidden. -/
def applyViewBoxS (vb : Option ViewBox) (st : PZState) : PZState :=
  let st1 :=
    match vb with
    | some v => if st.svgPresent then { st with domVB := some v } else st
    | none => st
  match vb with
  | some v =>
    if st1.containerPresent ∧ st1.svgPresent ∧ st1.largeGrid then
      match st1.origMax with
      | some om =>
        if om = 0 then { st1 with textHidden := true }
        else { st1 with textHidden := textStep om st1.textHidden v }
      | none => { st1 with textHidden := true }
    else st1
  | none => st1

/-- `setViewBoxPublic` from `usePanZoom.ts` lines 274-278: unconditionally
replaces the live rectangle, paints, and publishes the committed rectangle.
There is no guard on whether a diagram is loaded. -/
def setViewBoxPublicS (vb : ViewBox) (st : PZState) : PZState :=
  let st1 := { st with live := some vb }
  let st2 := applyViewBoxS (some vb) st1
  { st2 with committed := some vb }

/-- The synchronous part of `handleWheel` (`usePanZoom.ts` lines 152-203):
guarded by `activeRef` and a non-null `viewBoxRef`; accumulates the
multiplicative scale factor (`1.1` when `deltaY > 0`, else `0.9`), records
the cursor, and marks the interaction. The scheduled animation-frame
callback is `wheelFrameS`. -/
def handleWheelS (active : Bool) (deltaY cx cy : ℚ) (st : PZState) : PZState :=
  if active = false ∨ st.live = none then st
  else
    { st with
      pendingScale := st.pendingScale * (if 0 < deltaY then 11 / 10 else 9 / 10)
    , pendingCursor := (cx, cy)
    , interacting := true }

/-- The wheel animation-frame callback (`usePanZoom.ts` lines 169-194):
requires the live rectangle, the svg element, and a screen-to-diagram
transform (the snapshotted CTM composed with inversion, modelled as the
function `toDiagram`); resets the scale accumulator, converts the pending
cursor to diagram space, and installs `wheelZoomRect`. -/
def wheelFrameS (ctm : Option ((ℚ × ℚ) → ℚ × ℚ)) (st : PZState) : PZState :=
  match st.live, st.svgPresent, ctm with
  | some vb, true, some toDiagram =>
    let s := st.pendingScale
    let st1 := { st with pendingScale := 1 }
    let p := toDiagram st1.pendingCursor
    let newVb := wheelZoomRect vb p s
    applyViewBoxS (some newVb) { st1 with live := some newVb }
  | _, _, _ => st

/-- `handleMouseDown` (`usePanZoom.ts` lines 205-210): guarded by
`activeRef` and a non-null `viewBoxRef`. -/
def handleMouseDownS (active : Bool) (cx cy : ℚ) (st : PZState) : PZState :=
  if active = false ∨ st.live = none then st
  else
    { st with dragging := true, startPt := (cx, cy),
              pendingPt := (cx, cy), interacting := true }

/-- The synchronous part of `handleMouseMove` (`usePanZoom.ts` lines
213-220): guarded by `activeRef`, a non-null `viewBoxRef`, and an active
drag; overwrites the pending target point. The scheduled animation-frame
callback is `dragFrameS`. -/
def handleMouseMoveS (active : Bool) (cx cy : ℚ) (st : PZState) : PZState :=
  if active = false ∨ st.live = none ∨ st.dragging = false then st
  else { st with pendingPt := (cx, cy) }

/-- The drag animation-frame callback (`usePanZoom.ts` lines 222-243):
consumes the pending point into the start point, then, only if the svg
element is present, translates the live rectangle by the pending screen
delta scaled by `vb.w / screenW`. The source reads `viewBoxRef.current!`
with a non-null assertion; the `none` case is unreachable when the callback
was scheduled by `handleMouseMoveS`. -/
def dragFrameS (screenW : ℚ) (st : PZState) : PZState :=
  let dx := st.pendingPt.1 - st.startPt.1
  let dy := st.pendingPt.2 - st.startPt.2
  let st1 := { st with startPt := st.pendingPt }
  if st1.svgPresent = false then st1
  else
    match st1.live with
    | none => st1
    | some vb =>
      let scale := vb.w / screenW
      let newVb := { vb with x := vb.x - dx * scale, y := vb.y - dy * scale }
      applyViewBoxS (some newVb) { st1 with live := some newVb }

/-- `handleMouseUp` (`usePanZoom.ts` lines 246-254): ends the drag and
commits the live rectangle to the React state (`commitViewBox` copies only
when `viewBoxRef.current` is non-null). -/
def handleMouseUpS (st : PZState) : PZState :=
  let st1 := { st with dragging := false, interacting := false }
  match st1.live with
  | some v => { st1 with committed := some v }
  | none => st1

/-- Whitespace for the regex character class of the split pattern in
`processSvg` (the common whitespace characters). -/
def wsChar (c : Char) : Bool :=
  c = ' ' ∨ c = '\t' ∨ c = '\n' ∨ c = '\r'

/-- Worker for `splitSep`: JS `String.prototype.split` against the pattern
alternating a maximal whitespace run with a single comma. The flag records
whether the previous character extended a whitespace separator, so a run of
whitespace counts as one separator while every comma is its own. -/
def splitSepAux : Bool → List Char → List (List Char)
  | _, [] => [[]]
  | inWs, c :: rest =>
    if wsChar c then
      if inWs then splitSepAux true rest
      else [] :: splitSepAux true rest
    else if c = ',' then [] :: splitSepAux false rest
    else
      match splitSepAux false rest with
      | t :: ts => (c :: t) :: ts
      | [] => [[c]]

/-- The token split performed by `processSvg` (`part_004` line 81): the JS
split of the captured attribute value on one-or-more whitespace characters
or a single comma. Mixed separators such as a comma followed by a space
yield empty tokens, exactly as in JS. -/
def splitSep (s : List Char) : List (List Char) :=
  splitSepAux false s

/-- Either quote character accepted by the attribute pattern of `processSvg`
(the double quote, code 34, or the single quote, code 39). -/
def quoteChar (c : Char) : Bool :=
  c = Char.ofNat 34 ∨ c = Char.ofNat 39

/-- Attempt to match the `processSvg` attribute pattern at the head of the
string: the literal attribute name and equals sign, an opening quote, a
non-empty maximal run of non-quote characters (the capture), and a closing
quote. Because the character class of the capture excludes both quotes, the
greedy run is the only candidate and the match succeeds exactly when the
run is non-empty and followed by a further character (necessarily a
quote). -/
def matchVBAt : List Char → Option (List Char)
  | 'v' :: 'i' :: 'e' :: 'w' :: 'B' :: 'o' :: 'x' :: '=' :: q :: rest =>
    if quoteChar q then
      let content := rest.takeWhile (fun c => ¬ quoteChar c)
      if content ≠ [] ∧ rest.drop content.length ≠ [] then some content
      else none
    else none
  | _ => none

/-- Leftmost match of the `processSvg` attribute pattern: the JS regex
engine tries each start position from the left and returns the first
capture. -/
def findVB : List Char → Option (List Char)
  | [] => none
  | c :: rest =>
    match matchVBAt (c :: rest) with
    | some r => some r
    | none => findVB rest

/-- Numeric value of a digit string, most significant first. -/
def digitsToNat (ds : List Char) : ℕ :=
  ds.foldl (fun a c => a * 10 + (c.toNat - 48)) 0

/-- Model of the JS `parseFloat` builtin on the decimal grammar it accepts
(optional leading whitespace, optional sign, integer digits, optional
fraction, optional exponent; trailing garbage ignored). `none` models the
NaN result when no digits are found. The special `Infinity` literal is not
modelled; no input of interest produces it. -/
def parseFloatQ (s : List Char) : Option ℚ :=
  let s1 := s.dropWhile (fun c => wsChar c)
  let sgn : ℚ × List Char :=
    match s1 with
    | c :: rest =>
      if c = '-' then (-1, rest)
      else if c = '+' then (1, rest)
      else (1, s1)
    | [] => (1, s1)
  let s2 := sgn.2
  let intPart := s2.takeWhile Char.isDigit
  let s3 := s2.drop intPart.length
  let fracSplit : List Char × List Char :=
    match s3 with
    | c :: rest =>
      if c = '.' then
        (rest.takeWhile Char.isDigit,
         rest.drop (rest.takeWhile Char.isDigit).length)
      else ([], s3)
    | [] => ([], s3)
  let fracPart := fracSplit.1
  let s4 := fracSplit.2
  if intPart = [] ∧ fracPart = [] then none
  else
    let base : ℚ :=
      (digitsToNat intPart : ℚ) +
        (digitsToNat fracPart : ℚ) / ((10 : ℚ) ^ fracPart.length)
    let expFactor : ℚ :=
      match s4 with
      | c :: rest =>
        if c = 'e' ∨ c = 'E' then
          let esgn : Bool × List Char :=
            match rest with
            | d :: rr =>
              if d = '-' then (true, rr)
              else if d = '+' then (false, rr)
              else (false, rest)
            | [] => (false, rest)
          let eds := esgn.2.takeWhile Char.isDigit
          if eds = [] then 1
          else if esgn.1 then 1 / ((10 : ℚ) ^ digitsToNat eds)
          else (10 : ℚ) ^ digitsToNat eds
        else 1
      | [] => 1
    some (sgn.1 * base * expFactor)

/-- The rectangle parsed by `processSvg`: the four `parseFloat` results are
stored without validation, so each field is `none` when the token parsed to
NaN. -/
structure ViewBoxP where
  x : Option ℚ
  y : Option ℚ
  w : Option ℚ
  h : Option ℚ
deriving DecidableEq

/-- JS `Math.max` on possibly-NaN numbers: NaN propagates. -/
def jsMaxQ : Option ℚ → Option ℚ → Option ℚ
  | some a, some b => some (max a b)
  | _, _ => none

/-- Division of a possibly-NaN number by a non-zero constant. -/
def jsDiv (a : Option ℚ) (c : ℚ) : Option ℚ :=
  a.map (fun q => q / c)

/-- JS comparison `a <= c`: false when `a` is NaN. -/
def jsLe (a : Option ℚ) (c : ℚ) : Bool :=
  match a with
  | some q => q ≤ c
  | none => false

/-- JS comparison `a > c`: false when `a` is NaN. -/
def jsGt (a : Option ℚ) (c : ℚ) : Bool :=
  match a with
  | some q => c < q
  | none => false

/-- Result of `boostSvgForLargeGrid`: the markup (kept verbatim on the three
early-return paths), whether the boost transformations ran (the DOM was
parsed, scaled and re-serialized; the scaling of style rules and transforms
is not modelled further since no claim concerns it), and whether this call
set the `data-large-grid` attribute on the root element. -/
structure BoostOut where
  markup : List Char
  modified : Bool
  largeGridSet : Bool
deriving DecidableEq

/-- The reference size constant of `boostSvgForLargeGrid`
(`part_004` line 14). -/
def referenceSize : ℚ := 1250

/-- The boost threshold constant of `boostSvgForLargeGrid`
(`part_004` line 15). -/
def boostThreshold : ℚ := 3

/-- `boostSvgForLargeGrid` (`part_004` lines 7-72): returns the markup
unchanged when the rectangle is null, when the element-count hint is falsy
or below 500, or when `max(w, h) / 1250` is at most 3 (a NaN size fails
that comparison and therefore proceeds). Otherwise the document is
transformed and the root is tagged `data-large-grid` exactly when the size
quotient exceeds 6. -/
def boostSvgForLargeGrid (svgString : List Char) (viewBox : Option ViewBoxP)
    (vlCount : ℕ) : BoostOut :=
  match viewBox with
  | none => ⟨svgString, false, false⟩
  | some vb =>
    if vlCount < 500 then ⟨svgString, false, false⟩
    else
      let diagramSize := jsMaxQ vb.w vb.h
      let q := jsDiv diagramSize referenceSize
      if jsLe q boostThreshold then ⟨svgString, false, false⟩
      else ⟨svgString, true, jsGt q 6⟩

/-- Result of `processSvg`: the boosted markup and the parsed rectangle. -/
structure ProcessedSvg where
  svg : BoostOut
  viewBox : Option ViewBoxP
deriving DecidableEq

/-- `processSvg` (`part_004` lines 77-87): find the leftmost rectangle
declaration, split its value on whitespace runs or commas, and store the
four `parseFloat` results when there are exactly four tokens; otherwise the
rectangle is null. Then apply the large-grid boost. -/
def processSvg (rawSvg : List Char) (vlCount : ℕ) : ProcessedSvg :=
  let vb : Option ViewBoxP :=
    match findVB rawSvg with
    | none => none
    | some content =>
      match splitSep content with
      | [a, b, c, d] =>
        some ⟨parseFloatQ a, parseFloatQ b, parseFloatQ c, parseFloatQ d⟩
      | _ => none
  ⟨boostSvgForLargeGrid rawSvg vb vlCount, vb⟩

/-- Node metadata (`NodeMeta` in the frontend types): domain identity,
render identity, diagram-space anchor, optional legend render identities. -/
structure NodeMeta where
  equipmentId : String
  svgId : String
  x : ℚ
  y : ℚ
  legendSvgId : Option String
  legendEdgeSvgId : Option String
deriving DecidableEq

/-- Label-element descriptor at one end of an edge (`edgeInfo1` and
`edgeInfo2` in the frontend types). -/
structure EdgeInfoRef where
  svgId : String
deriving DecidableEq

/-- Edge metadata (`EdgeMeta` in the frontend types): domain identity,
render identity, the render identities of the two endpoint nodes, and the
optional label-element descriptors. -/
structure EdgeMeta where
  equipmentId : String
  svgId : String
  node1 : String
  node2 : String
  edgeInfo1 : Option EdgeInfoRef
  edgeInfo2 : Option EdgeInfoRef
deriving DecidableEq

/-- First-match association lookup, the model of JS `Map.get` over the
association lists built by `mapSet` (whose keys are unique). -/
def alookup {α : Type} (m : List (String × α)) (k : String) : Option α :=
  match m.find? (fun p => p.1 = k) with
  | some p => some p.2
  | none => none

/-- JS `Map.set` semantics: an existing key is updated in place keeping its
position, a new key is appended in insertion order. -/
def mapSet {α : Type} (m : List (String × α)) (k : String) (v : α) :
    List (String × α) :=
  if m.any (fun p => p.1 = k) then
    m.map (fun p => if p.1 = k then (k, v) else p)
  else m ++ [(k, v)]

/-- The `edgesByNode` insertion step of `buildMetadataIndex`: create an
empty bucket for a missing key, then push the edge onto the bucket. -/
def mapPush (m : List (String × List EdgeMeta)) (k : String) (e : EdgeMeta) :
    List (String × List EdgeMeta) :=
  if m.any (fun p => p.1 = k) then
    m.map (fun p => if p.1 = k then (p.1, p.2 ++ [e]) else p)
  else m ++ [(k, [e])]

/-- The four lookup structures built by `buildMetadataIndex`
(`part_004` lines 98-116). -/
structure MetadataIndex where
  nodesByEquipmentId : List (String × NodeMeta)
  nodesBySvgId : List (String × NodeMeta)
  edgesByEquipmentId : List (String × EdgeMeta)
  edgesByNode : List (String × List EdgeMeta)
deriving DecidableEq

/-- A metadata record with optional node and edge lists. The source also
accepts a serialized record and parses it first; the input here is the
already-parsed structure (the serialization branch is outside the embedded
claims). -/
structure NodeEdgeRecord where
  nodes : Option (List NodeMeta)
  edges : Option (List EdgeMeta)
deriving DecidableEq

/-- The `MetadataIndex` with four empty maps. -/
def emptyIndex : MetadataIndex := ⟨[], [], [], []⟩

/-- `buildMetadataIndex` (`part_004` lines 92-117): null and undefined
metadata (and any other falsy value, modelled by `none`) yield `null`;
otherwise absent `nodes` and `edges` lists default to empty and the four
maps are built by insertion-order folds, each edge being pushed into the
by-node map under both of its endpoints. -/
def buildMetadataIndex (metadata : Option NodeEdgeRecord) :
    Option MetadataIndex :=
  match metadata with
  | none => none
  | some meta =>
    let nodes := meta.nodes.getD []
    let edges := meta.edges.getD []
    let nbe := nodes.foldl (fun m n => mapSet m n.equipmentId n) []
    let nbs := nodes.foldl (fun m n => mapSet m n.svgId n) []
    let ebe := edges.foldl (fun m e => mapSet m e.equipmentId e) []
    let ebn := edges.foldl (fun m e => mapPush (mapPush m e.node1 e) e.node2 e) []
    some ⟨nbe, nbs, ebe, ebn⟩

/-- An action topology (`ActionTopology` in the frontend types): four
name-to-bus maps, each possibly absent, with `-1` denoting disconnection.
JS object key order is insertion order, so each map is an association
list. -/
structure ActionTopology where
  lines_ex_bus : Option (List (String × ℤ))
  lines_or_bus : Option (List (String × ℤ))
  gens_bus : Option (List (String × ℤ))
  loads_bus : Option (List (String × ℤ))
deriving DecidableEq

/-- The fields of an action detail record read by the embedded overlay
operations (the source record carries further fields, none of which
`getActionTargetLines` reads). -/
structure ActionDetail where
  action_topology : Option ActionTopology
deriving DecidableEq

/-- Worker for `jsDedup`: keep the first occurrence of each element, as a
JS `Set` constructed from an array does. -/
def jsDedupAux (seen : List String) : List String → List String
  | [] => []
  | a :: l =>
    if a ∈ seen then jsDedupAux seen l
    else a :: jsDedupAux (a :: seen) l

/-- Insertion-order deduplication: the spread of a JS `Set` built from a
concatenation of key arrays. -/
def jsDedup (l : List String) : List String :=
  jsDedupAux [] l

/-- `Object.keys` of a possibly-absent map (`topo.xxx_bus || \x7b\x7d`). -/
def keysOf (m : Option (List (String × ℤ))) : List String :=
  (m.getD []).map Prod.fst

/-- `Object.values` of a possibly-absent map. -/
def valuesOf (m : Option (List (String × ℤ))) : List ℤ :=
  (m.getD []).map Prod.snd

/-- The deduplicated line identifiers of a topology, in insertion order:
the `lineKeys` set of `getActionTargetLines` (`part_004` lines 151-154). -/
def topoLineKeys (topo : ActionTopology) : List String :=
  jsDedup (keysOf topo.lines_ex_bus ++ keysOf topo.lines_or_bus)

/-- All bus values of a topology in the order `getActionTargetLines`
collects them (`part_004` lines 162-167). -/
def allBusValues (topo : ActionTopology) : List ℤ :=
  valuesOf topo.lines_ex_bus ++ valuesOf topo.lines_or_bus ++
    valuesOf topo.gens_bus ++ valuesOf topo.loads_bus

/-- JS `split` on the underscore string: every underscore is a separator,
and the empty string splits to one empty token. -/
def splitUS : List Char → List (List Char)
  | [] => [[]]
  | c :: rest =>
    if c = '_' then [] :: splitUS rest
    else
      match splitUS rest with
      | t :: ts => (c :: t) :: ts
      | [] => [[c]]

/-- The action-identifier fallback of `getActionTargetLines`
(`part_004` lines 173-179): take the last underscore-delimited token of the
identifier and return it alone when it is a known edge identifier. The JS
guard `if (actionId)` is false for the empty string. -/
def actionIdFallback (actionId : Option String)
    (edgesByEquipmentId : List (String × EdgeMeta)) : List String :=
  match actionId with
  | none => []
  | some aid =>
    if aid = "" then []
    else
      let parts := splitUS aid.toList
      let candidate := String.mk (parts.getLastD [])
      if (alookup edgesByEquipmentId candidate).isSome then [candidate]
      else []

/-- `getActionTargetLines` (`part_004` lines 144-182): when a topology is
present, a pure line topology (non-empty line keys, no generator or load
keys) resolves to its deduplicated line keys; otherwise, when the collected
bus values are non-empty and all equal `-1`, it also resolves to the line
keys; in every other case the action-identifier fallback decides. -/
def getActionTargetLines (actionDetail : Option ActionDetail)
    (actionId : Option String)
    (edgesByEquipmentId : List (String × EdgeMeta)) : List String :=
  let topoRes : Option (List String) :=
    match actionDetail.bind (fun d => d.action_topology) with
    | none => none
    | some topo =>
      let lineKeys := topoLineKeys topo
      let genKeys := keysOf topo.gens_bus
      let loadKeys := keysOf topo.loads_bus
      if lineKeys ≠ [] ∧ genKeys = [] ∧ loadKeys = [] then some lineKeys
      else
        let allValues := allBusValues topo
        if allValues ≠ [] ∧ allValues.all (fun v => v = -1) then some lineKeys
        else none
  match topoRes with
  | some r => r
  | none => actionIdFallback actionId edgesByEquipmentId

/-- The `isInRange` helper of the voltage-range filter effect in the app
component (the `applyFilter` effect): a voltage-level identifier is in
range when its nominal kV is recorded and lies inclusively between the
bounds; a missing entry (`kv == null`) is out of range. -/
def isInRange (nominalVoltageMap : List (String × ℚ)) (minKv maxKv : ℚ)
    (vlId : String) : Bool :=
  match alookup nominalVoltageMap vlId with
  | some kv => minKv ≤ kv ∧ kv ≤ maxKv
  | none => false

/-- Whether the voltage-range filter assigns `display:none` to a node (and
its legend counterparts): the loop body over `nodesByEquipmentId` sets
`display` to the empty string when in range and to `none` otherwise. -/
def nodeDisplayNone (nominalVoltageMap : List (String × ℚ)) (minKv maxKv : ℚ)
    (vlId : String) : Bool :=
  ¬ isInRange nominalVoltageMap minKv maxKv vlId

/-- Whether the voltage-range filter assigns `display:none` to an edge (and
its label elements): the loop body over `edgesByEquipmentId` resolves both
endpoint nodes through `nodesBySvgId`, treats an unresolvable endpoint as
in range, and hides the edge exactly when neither endpoint is in range. -/
def edgeDisplayNone (nominalVoltageMap : List (String × ℚ)) (minKv maxKv : ℚ)
    (nodesBySvgId : List (String × NodeMeta)) (edge : EdgeMeta) : Bool :=
  let vl1InRange :=
    match alookup nodesBySvgId edge.node1 with
    | some n => isInRange nominalVoltageMap minKv maxKv n.equipmentId
    | none => true
  let vl2InRange :=
    match alookup nodesBySvgId edge.node2 with
    | some n => isInRange nominalVoltageMap minKv maxKv n.equipmentId
    | none => true
  !(vl1InRange || vl2InRange)

/-- A rendered text target (a `foreignObject` or `text` descendant of an
edge-label group): its text content and the optional
`data-original-text` cache attribute. -/
structure TextEl where
  text : String
  origText : Option String
deriving DecidableEq

/-- A rendered element carrying an id, as seen by the delta overlay: its
class list and the text targets below it. Render identifiers are unique
within one diagram instance, so the id-keyed map built by the overlay
resolves each id to one element. -/
structure DomEl where
  id : String
  classes : List String
  labels : List TextEl
deriving DecidableEq

/-- A flow-delta entry (`FlowDelta` in the frontend types). -/
structure DeltaInfo where
  delta : ℚ
  category : String
deriving DecidableEq

/-- The part of a diagram payload the delta overlay reads: the optional
per-line flow-delta record. -/
structure DiagramDelta where
  flow_deltas : Option (List (String × DeltaInfo))
deriving DecidableEq

/-- Remove the three delta marker classes from an element
(`part_004` lines 343-345). -/
def removeDeltaClasses (e : DomEl) : DomEl :=
  let keep : String → Bool := fun c =>
    ¬ (c = "nad-delta-positive" ∨ c = "nad-delta-negative" ∨
        c = "nad-delta-grey")
  { e with classes := e.classes.filter keep }

/-- Restore one cached label (`part_004` lines 348-351): an element with
the cache attribute gets its text content replaced by the cached value and
the attribute removed; others are untouched. -/
def restoreTextEl (t : TextEl) : TextEl :=
  match t.origText with
  | some s => ⟨s, none⟩
  | none => t

/-- Overwrite one label with the delta string (`part_004` lines 382-387):
cache the current text first unless a cache is already present, then
replace the text. -/
def overwriteTextEl (d : String) (t : TextEl) : TextEl :=
  { text := d
  , origText :=
      match t.origText with
      | none => some t.text
      | some s => some s }

/-- `classList.add`: append the class unless already present. -/
def addClass (c : String) (e : DomEl) : DomEl :=
  if c ∈ e.classes then e else { e with classes := e.classes ++ [c] }

/-- The category-to-class map of the delta overlay
(`part_004` lines 366-370). -/
def deltaClassMap (category : String) : Option String :=
  if category = "positive" then some "nad-delta-positive"
  else if category = "negative" then some "nad-delta-negative"
  else if category = "grey" then some "nad-delta-grey"
  else none

/-- JS `toFixed(1)` on a non-negative rational: round to the nearest tenth,
ties away from zero on the magnitude, and print one fractional digit. -/
def toFixed1Abs (q : ℚ) : String :=
  let n : ℤ := Int.floor (q * 10 + 1 / 2)
  toString (n / 10) ++ "." ++ toString (n % 10)

/-- The signed one-decimal delta string of the overlay
(`part_004` line 375): a `+` sign is prepended when the delta is
non-negative. -/
def deltaText (info : DeltaInfo) : String :=
  let s :=
    if 0 ≤ info.delta then "+" ++ toFixed1Abs info.delta
    else "-" ++ toFixed1Abs (-info.delta)
  "Δ " ++ s

/-- Update every element with the given render id (render ids are unique
within a diagram, so this is the single element the id map resolves; a
missing id is a silent no-op, as in the source). -/
def updateEl (f : DomEl → DomEl) (targetId : String) (cont : List DomEl) :
    List DomEl :=
  cont.map (fun e => if e.id = targetId then f e else e)

/-- One iteration of the flow-delta loop (`part_004` lines 360-389): skip
entries whose line is unknown or whose edge has a falsy render id; add the
category class to the edge element; and overwrite the text targets under
each label element whose render id is truthy and resolvable. -/
def applyDeltaEntry (edgesByEquipmentId : List (String × EdgeMeta))
    (cont : List DomEl) (entry : String × DeltaInfo) : List DomEl :=
  match alookup edgesByEquipmentId entry.1 with
  | none => cont
  | some edge =>
    if edge.svgId = "" then cont
    else
      let cont1 :=
        match deltaClassMap entry.2.category with
        | some cls => updateEl (addClass cls) edge.svgId cont
        | none => cont
      let dstr := deltaText entry.2
      let infoIds :=
        ([edge.edgeInfo1, edge.edgeInfo2].filterMap
          (fun o => o.map (fun r => r.svgId))).filter (fun s => s ≠ "")
      infoIds.foldl
        (fun c iid =>
          updateEl (fun e => { e with labels := e.labels.map (overwriteTextEl dstr) })
            iid c)
        cont1

/-- `applyDeltaVisuals` (`part_004` lines 334-390): a null container,
diagram or index is a no-op; otherwise clear the delta classes, restore
every cached label, and, only when delta mode is on and the flow-delta
record is present, run the flow-delta loop. -/
def applyDeltaVisuals (container : Option (List DomEl))
    (diagram : Option DiagramDelta) (metaIndex : Option MetadataIndex)
    (isDeltaMode : Bool) : Option (List DomEl) :=
  match container, diagram, metaIndex with
  | some cont, some diag, some mi =>
    let c1 := cont.map removeDeltaClasses
    let c2 := c1.map (fun e => { e with labels := e.labels.map restoreTextEl })
    if isDeltaMode = false ∨ diag.flow_deltas = none then some c2
    else
      some ((diag.flow_deltas.getD []).foldl
        (applyDeltaEntry mi.edgesByEquipmentId) c2)
  | _, _, _ => container

/-- Claim C1: for every rectangle with positive width and height, every
cursor point `p` in diagram space and every accumulated scale `s > 0`, the
rectangle produced by the wheel-zoom frame callback keeps the relative
coordinates of `p` unchanged in both axes, so the diagram-space point under
the cursor maps to the same screen position before and after the zoom. -/
theorem wheelZoomRect_fixes_cursor (vb : ViewBox) (p : ℚ × ℚ) (s : ℚ)
    (hw : 0 < vb.w) (hh : 0 < vb.h) (hs : 0 < s) :
    (p.1 - (wheelZoomRect vb p s).x) / (wheelZoomRect vb p s).w
        = (p.1 - vb.x) / vb.w ∧
    (p.2 - (wheelZoomRect vb p s).y) / (wheelZoomRect vb p s).h
        = (p.2 - vb.y) / vb.h := by
  have hw0 : vb.w ≠ 0 := ne_of_gt hw
  have hh0 : vb.h ≠ 0 := ne_of_gt hh
  have hs0 : s ≠ 0 := ne_of_gt hs
  constructor
  · show (p.1 - (vb.x + (p.1 - vb.x) * (1 - s))) / (vb.w * s) = (p.1 - vb.x) / vb.w
    field_simp
    ring
  · show (p.2 - (vb.y + (p.2 - vb.y) * (1 - s))) / (vb.h * s) = (p.2 - vb.y) / vb.h
    field_simp
    ring

/-- Witness for C1 at the rectangle `(1, 2, 10, 20)`, cursor `(3, 4)` and
accumulated scale `1/2`. -/
theorem wheelZoomRect_fixes_cursor_witness :
    ((3 : ℚ) - (wheelZoomRect ⟨1, 2, 10, 20⟩ (3, 4) (1 / 2)).x)
        / (wheelZoomRect ⟨1, 2, 10, 20⟩ (3, 4) (1 / 2)).w
      = ((3 : ℚ) - 1) / 10 ∧
    ((4 : ℚ) - (wheelZoomRect ⟨1, 2, 10, 20⟩ (3, 4) (1 / 2)).y)
        / (wheelZoomRect ⟨1, 2, 10, 20⟩ (3, 4) (1 / 2)).h
      = ((4 : ℚ) - 2) / 20 :=
  wheelZoomRect_fixes_cursor ⟨1, 2, 10, 20⟩ (3, 4) (1 / 2)
    (by decide) (by decide) (by decide)

/-- Claim C4: the large-grid text-visibility state machine has exactly the
two hysteresis transitions. A step changes the state only when the state is
hidden and the relative size is strictly below `0.45`, or when the state is
shown and the relative size is at least `0.55`; a step whose relative size
lies in `[0.45, 0.55)` never changes the state; and consequently a whole
sequence of applied rectangles whose relative sizes stay in `[0.45, 0.55)`
leaves the visibility unchanged, so oscillation around a single interior
value such as `0.5` causes no toggling. -/
theorem textStep_hysteresis (origMax : ℚ) (hidden : Bool) (vb : ViewBox) :
    (textStep origMax hidden vb ≠ hidden →
       (hidden = true ∧ viewFrac origMax vb < textShowThreshold) ∨
       (hidden = false ∧ textHideThreshold ≤ viewFrac origMax vb)) ∧
    (textShowThreshold ≤ viewFrac origMax vb →
       viewFrac origMax vb < textHideThreshold →
       textStep origMax hidden vb = hidden) ∧
    (∀ vbs : List ViewBox,
       (∀ v ∈ vbs, textShowThreshold ≤ viewFrac origMax v ∧
           viewFrac origMax v < textHideThreshold) →
       textRun origMax hidden vbs = hidden) := by
  refine ⟨?_, ?_, ?_⟩
  · intro hne
    unfold textStep at hne
    cases hidden with
    | true =>
      by_cases h1 : viewFrac origMax vb < textShowThreshold
      · exact Or.inl ⟨rfl, h1⟩
      · simp [h1] at hne
    | false =>
      by_cases h2 : textHideThreshold ≤ viewFrac origMax vb
      · exact Or.inr ⟨rfl, h2⟩
      · simp [h2] at hne
  · intro hlo hhi
    unfold textStep
    cases hidden with
    | true => simp [not_lt.mpr hlo]
    | false => simp [not_le.mpr hhi]
  · intro vbs
    induction vbs generalizing hidden with
    | nil => intro _; rfl
    | cons v rest ih =>
      intro hmem
      have hstep : textStep origMax hidden v = hidden := by
        have h := hmem v (by simp)
        unfold textStep
        cases hidden with
        | true => simp [not_lt.mpr h.1]
        | false => simp [not_le.mpr h.2]
      show textRun origMax (textStep origMax hidden v) rest = hidden
      rw [hstep]
      exact ih hidden (fun w hw => hmem w (by simp [hw]))

/-- Witness for C4: starting hidden with initial maximum dimension `100`,
the sequence of rectangles with relative sizes `0.5` and `0.52` leaves the
text hidden. -/
theorem textStep_hysteresis_witness :
    textRun 100 true [⟨0, 0, 50, 50⟩, ⟨0, 0, 52, 52⟩] = true :=
  (textStep_hysteresis 100 true ⟨0, 0, 50, 50⟩).2.2
    [⟨0, 0, 50, 50⟩, ⟨0, 0, 52, 52⟩] (by decide)

/-- Counterexample to claim C7 as stated: in the freshly mounted state the
diagram is not loaded and the rendered tree is absent, yet the public
`setView` operation is not a no-op — it replaces both the live and the
committed rectangle, because `setViewBoxPublic` carries no guard. -/
theorem setViewBoxPublicS_mutates_unloaded :
    initState.live = none ∧ initState.svgPresent = false ∧
    (setViewBoxPublicS ⟨0, 0, 100, 100⟩ initState).live = some ⟨0, 0, 100, 100⟩ ∧
    (setViewBoxPublicS ⟨0, 0, 100, 100⟩ initState).committed
      = some ⟨0, 0, 100, 100⟩ := by decide

/-- Claim C7, amended: when the diagram is not yet loaded (no live
rectangle), the wheel and drag input handlers are exact no-ops; when the
rendered tree is absent, the frame callbacks leave the live and committed
rectangles and the painted attribute unchanged, and `setView` performs no
paint — but `setView` is not a no-op: it still replaces the live and
committed rectangles. Nothing throws: every operation is a total
function on the state. -/
theorem pz_unloaded_behavior :
    (∀ (st : PZState) (active : Bool) (d cx cy : ℚ), st.live = none →
       handleWheelS active d cx cy st = st ∧
       handleMouseDownS active cx cy st = st ∧
       handleMouseMoveS active cx cy st = st) ∧
    (∀ (st : PZState) (ctm : Option ((ℚ × ℚ) → ℚ × ℚ)) (sw : ℚ),
       st.svgPresent = false →
       wheelFrameS ctm st = st ∧
       (dragFrameS sw st).live = st.live ∧
       (dragFrameS sw st).committed = st.committed ∧
       (dragFrameS sw st).domVB = st.domVB) ∧
    (∀ (st : PZState) (vb : ViewBox), st.svgPresent = false →
       (setViewBoxPublicS vb st).domVB = st.domVB ∧
       (setViewBoxPublicS vb st).live = some vb ∧
       (setViewBoxPublicS vb st).committed = some vb) := by
  refine ⟨?_, ?_, ?_⟩
  · intro st active d cx cy h
    refine ⟨?_, ?_, ?_⟩
    · unfold handleWheelS
      rw [if_pos (Or.inr h)]
    · unfold handleMouseDownS
      rw [if_pos (Or.inr h)]
    · unfold handleMouseMoveS
      rw [if_pos (Or.inr (Or.inl h))]
  · intro st ctm sw h
    obtain ⟨live, committed, svgP, containerP, lg, domVB, om, th, ps, pc, dr, sp, pp, ia⟩ := st
    simp only at h
    subst h
    refine ⟨?_, ?_, ?_, ?_⟩
    · cases live <;> cases ctm <;> rfl
    all_goals simp [dragFrameS]
  · intro st vb h
    obtain ⟨live, committed, svgP, containerP, lg, domVB, om, th, ps, pc, dr, sp, pp, ia⟩ := st
    simp only at h
    subst h
    refine ⟨?_, ?_, ?_⟩ <;> simp [setViewBoxPublicS, applyViewBoxS]

/-- Witness for the amended C7 at the freshly mounted state: the wheel
handler is a no-op and `setView` paints nothing while still replacing the
live rectangle. -/
theorem pz_unloaded_behavior_witness :
    handleWheelS true 1 5 6 initState = initState ∧
    (setViewBoxPublicS ⟨1, 1, 2, 2⟩ initState).domVB = initState.domVB ∧
    (setViewBoxPublicS ⟨1, 1, 2, 2⟩ initState).live = some ⟨1, 1, 2, 2⟩ :=
  ⟨(pz_unloaded_behavior.1 initState true 1 5 6 rfl).1,
   (pz_unloaded_behavior.2.2 initState ⟨1, 1, 2, 2⟩ rfl).1,
   (pz_unloaded_behavior.2.2 initState ⟨1, 1, 2, 2⟩ rfl).2.1⟩

/-- Counterexample to claim C2 as stated: for the topology with all four
maps absent, every bus value vacuously equals `-1`, yet the resolver does
not return only the line identifiers of that topology (the empty list) —
it falls through to the action-identifier lookup and returns an edge that
is no line of the topology. -/
theorem getActionTargetLines_vacuous_counterexample :
    (allBusValues ⟨none, none, none, none⟩).all (fun v => v = -1) = true ∧
    getActionTargetLines (some ⟨some ⟨none, none, none, none⟩⟩)
        (some "disconnect_E1")
        [("E1", ⟨"E1", "svg-e1", "vl1", "vl2", none, none⟩)] = ["E1"] ∧
    topoLineKeys ⟨none, none, none, none⟩ = [] := by
  refine ⟨by decide, by decide, by decide⟩

/-- Claim C2, amended: a topology with non-empty line maps and no
generator or load entries resolves to exactly its deduplicated line
identifiers; a topology with at least one bus value, all of which equal
`-1`, resolves to exactly its line identifiers; and a topology in which
some generator or load carries a bus value other than `-1` contributes no
lines — the result is exactly the action-identifier suffix lookup against
the known edge identifiers. (The amendment restricts the second case to
topologies with at least one bus value: an all-empty topology also falls
through to the suffix lookup.) -/
theorem getActionTargetLines_resolution :
    (∀ (topo : ActionTopology) (actionId : Option String)
        (edges : List (String × EdgeMeta)),
       topoLineKeys topo ≠ [] → keysOf topo.gens_bus = [] →
       keysOf topo.loads_bus = [] →
       getActionTargetLines (some ⟨some topo⟩) actionId edges
         = topoLineKeys topo) ∧
    (∀ (topo : ActionTopology) (actionId : Option String)
        (edges : List (String × EdgeMeta)),
       allBusValues topo ≠ [] → (∀ v ∈ allBusValues topo, v = -1) →
       getActionTargetLines (some ⟨some topo⟩) actionId edges
         = topoLineKeys topo) ∧
    (∀ (topo : ActionTopology) (actionId : Option String)
        (edges : List (String × EdgeMeta)) (v : ℤ),
       v ∈ valuesOf topo.gens_bus ++ valuesOf topo.loads_bus → v ≠ -1 →
       getActionTargetLines (some ⟨some topo⟩) actionId edges
         = actionIdFallback actionId edges) := by
  refine ⟨?_, ?_, ?_⟩
  · intro topo actionId edges hl hg hld
    unfold getActionTargetLines
    simp only [Option.bind]
    rw [if_pos ⟨hl, hg, hld⟩]
  · intro topo actionId edges hne hall
    unfold getActionTargetLines
    simp only [Option.bind]
    by_cases h1 : topoLineKeys topo ≠ [] ∧ keysOf topo.gens_bus = [] ∧
        keysOf topo.loads_bus = []
    · rw [if_pos h1]
    · rw [if_neg h1, if_pos ⟨hne, by
        rw [List.all_eq_true]
        intro v hv
        exact decide_eq_true (hall v hv)⟩]
  · intro topo actionId edges v hv hvne
    unfold getActionTargetLines
    simp only [Option.bind]
    have key : ∀ (m : Option (List (String × ℤ))), v ∈ valuesOf m →
        keysOf m ≠ [] := by
      intro m hm hk
      unfold valuesOf at hm
      unfold keysOf at hk
      rw [List.map_eq_nil_iff] at hk
      rw [hk] at hm
      simp at hm
    have hgl : keysOf topo.gens_bus ≠ [] ∨ keysOf topo.loads_bus ≠ [] := by
      rcases List.mem_append.mp hv with h | h
      · exact Or.inl (key _ h)
      · exact Or.inr (key _ h)
    rw [if_neg (by
      rintro ⟨-, hg, hld⟩
      rcases hgl with h | h
      · exact h hg
      · exact h hld)]
    rw [if_neg (by
      rintro ⟨-, hall⟩
      rw [List.all_eq_true] at hall
      have : v ∈ allBusValues topo := by
        unfold allBusValues
        rcases List.mem_append.mp hv with h | h <;>
          simp [List.mem_append, h]
      exact hvne (of_decide_eq_true (hall v this)))]

/-- Witness for the amended C2: a pure line topology resolves to its two
line identifiers in insertion order. -/
theorem getActionTargetLines_resolution_witness :
    getActionTargetLines
        (some ⟨some ⟨some [("L1", 1), ("L2", 2)], some [("L1", 1)], none, none⟩⟩)
        none [] = ["L1", "L2"] :=
  (getActionTargetLines_resolution.1
      ⟨some [("L1", 1), ("L2", 2)], some [("L1", 1)], none, none⟩ none []
      (by decide) (by decide) (by decide)).trans (by decide)

/-- Auxiliary: `Map.set` never produces an empty map. -/
theorem mapSet_ne_nil {α : Type} (m : List (String × α)) (k : String) (v : α) :
    mapSet m k v ≠ [] := by
  unfold mapSet
  by_cases h : m.any (fun p => p.1 = k) = true
  · rw [if_pos h]
    intro hc
    rw [List.map_eq_nil_iff] at hc
    subst hc
    simp at h
  · rw [if_neg h]
    simp

/-- Auxiliary: folding `Map.set` insertions over a list preserves
non-emptiness of the map. -/
theorem foldl_mapSet_ne_nil {α : Type} (key : α → String) :
    ∀ (l : List α) (m : List (String × α)), m ≠ [] →
      List.foldl (fun acc a => mapSet acc (key a) a) m l ≠ [] := by
  intro l
  induction l with
  | nil => intro m hm; exact hm
  | cons a rest ih =>
    intro m hm
    exact ih (mapSet m (key a) a) (mapSet_ne_nil m (key a) a)

/-- Claim C9: `buildMetadataIndex` returns `null` exactly for absent
metadata — never an empty index — and an index with four empty maps arises
only from a present record whose node and edge lists are absent or empty,
so callers must handle a null index even when a diagram exists without
metadata. -/
theorem buildMetadataIndex_nullness :
    buildMetadataIndex none = none ∧
    (∀ m : NodeEdgeRecord, buildMetadataIndex (some m) ≠ none) ∧
    (∀ m : NodeEdgeRecord, buildMetadataIndex (some m) = some emptyIndex →
       m.nodes.getD [] = [] ∧ m.edges.getD [] = []) := by
  refine ⟨rfl, ?_, ?_⟩
  · intro m
    simp [buildMetadataIndex]
  · intro m h
    simp only [buildMetadataIndex, Option.some_inj] at h
    constructor
    · cases hn : m.nodes.getD [] with
      | nil => rfl
      | cons n rest =>
        exfalso
        have h1 := congrArg MetadataIndex.nodesByEquipmentId h
        rw [hn] at h1
        simp only [emptyIndex] at h1
        have h2 : List.foldl
            (fun acc a => mapSet acc (NodeMeta.equipmentId a) a)
            (mapSet [] n.equipmentId n) rest ≠ [] :=
          foldl_mapSet_ne_nil NodeMeta.equipmentId rest _
            (mapSet_ne_nil [] n.equipmentId n)
        exact h2 h1
    · cases he : m.edges.getD [] with
      | nil => rfl
      | cons e rest =>
        exfalso
        have h1 := congrArg MetadataIndex.edgesByEquipmentId h
        rw [he] at h1
        simp only [emptyIndex] at h1
        have h2 : List.foldl
            (fun acc a => mapSet acc (EdgeMeta.equipmentId a) a)
            (mapSet [] e.equipmentId e) rest ≠ [] :=
          foldl_mapSet_ne_nil EdgeMeta.equipmentId rest _
            (mapSet_ne_nil [] e.equipmentId e)
        exact h2 h1

/-- Witness for C9: the record with both lists absent yields a non-null
index, and an index equal to the empty one implies the defaulted lists are
empty. -/
theorem buildMetadataIndex_nullness_witness :
    (buildMetadataIndex (some ⟨none, none⟩)).isSome = true ∧
    (⟨none, none⟩ : NodeEdgeRecord).nodes.getD [] = [] :=
  ⟨Option.isSome_iff_ne_none.mpr (buildMetadataIndex_nullness.2.1 ⟨none, none⟩),
   (buildMetadataIndex_nullness.2.2 ⟨none, none⟩ (by decide)).1⟩

/-- Claim C3: for every markup in which the leftmost rectangle declaration
captures a value splitting into exactly four tokens that parse as numbers,
`processSvg` returns the rectangle with those four numbers in order; for
every markup with no declaration it returns a null rectangle. -/
theorem processSvg_parses_viewbox :
    (∀ (raw : List Char) (vlCount : ℕ) (content a b c d : List Char)
        (n1 n2 n3 n4 : ℚ),
       findVB raw = some content →
       splitSep content = [a, b, c, d] →
       parseFloatQ a = some n1 → parseFloatQ b = some n2 →
       parseFloatQ c = some n3 → parseFloatQ d = some n4 →
       (processSvg raw vlCount).viewBox
         = some ⟨some n1, some n2, some n3, some n4⟩) ∧
    (∀ (raw : List Char) (vlCount : ℕ),
       findVB raw = none → (processSvg raw vlCount).viewBox = none) := by
  constructor
  · intro raw vlCount content a b c d n1 n2 n3 n4 hf hs h1 h2 h3 h4
    simp only [processSvg, hf, hs, h1, h2, h3, h4]
  · intro raw vlCount hf
    simp only [processSvg, hf]

/-- Witness for C3 on the markup with the declaration
`0 1.5 500,400` (whitespace- and comma-delimited tokens). -/
theorem processSvg_parses_viewbox_witness :
    (processSvg "<rect viewBox=\"0 1.5 500,400\"/>".toList 10).viewBox
      = some ⟨some 0, some (3 / 2), some 500, some 400⟩ :=
  processSvg_parses_viewbox.1 "<rect viewBox=\"0 1.5 500,400\"/>".toList 10
    "0 1.5 500,400".toList "0".toList "1.5".toList "500".toList "400".toList
    0 (3 / 2) 500 400 (by decide) (by decide) (by decide) (by decide)
    (by decide) (by decide)

/-- Counterexample to claim C6 as stated: with an element-count hint below
500 the boost returns the markup untouched, so no large-grid marker is set
even though the size quotient `12500 / 1250 = 10` exceeds 6. -/
theorem boost_marker_counterexample :
    (boostSvgForLargeGrid "<svg/>".toList
        (some ⟨some 0, some 0, some 12500, some 12500⟩) 10).largeGridSet
      = false ∧
    jsGt (jsDiv (jsMaxQ (some (12500 : ℚ)) (some 12500)) referenceSize) 6
      = true := by
  refine ⟨by decide, by decide⟩

/-- Claim C6, amended: for a present parsed rectangle and an element-count
hint of at least 500, the boost sets the large-grid marker exactly when
`max(w, h) / 1250 > 6`; with a smaller hint (or an absent rectangle) the
markup is returned unchanged and no marker is set. -/
theorem boost_marker_iff (svg : List Char) (vb : ViewBoxP) (vlCount : ℕ)
    (h : 500 ≤ vlCount) :
    (boostSvgForLargeGrid svg (some vb) vlCount).largeGridSet
      = jsGt (jsDiv (jsMaxQ vb.w vb.h) referenceSize) 6 := by
  simp only [boostSvgForLargeGrid]
  rw [if_neg (by omega)]
  cases hq : jsMaxQ vb.w vb.h with
  | none => simp [jsDiv, jsLe, jsGt]
  | some r =>
    by_cases h3 : r / referenceSize ≤ boostThreshold
    · have hle : jsLe (jsDiv (some r) referenceSize) boostThreshold = true := by
        simp [jsDiv, jsLe, h3]
      rw [if_pos hle]
      have hgt : jsGt (jsDiv (some r) referenceSize) 6 = false := by
        simp only [jsDiv, Option.map_some', jsGt, decide_eq_false_iff_not,
          not_lt]
        have hb : boostThreshold ≤ 6 := by norm_num [boostThreshold]
        linarith
      rw [hgt]
    · have hle : ¬ jsLe (jsDiv (some r) referenceSize) boostThreshold = true := by
        simp [jsDiv, jsLe, h3]
      rw [if_neg hle]

/-- Witness for the amended C6: hint 600, width 10000, quotient 8: the
marker is set. -/
theorem boost_marker_iff_witness :
    (boostSvgForLargeGrid "<svg/>".toList
        (some ⟨some 0, some 0, some 10000, some 9000⟩) 600).largeGridSet
      = true :=
  (boost_marker_iff "<svg/>".toList ⟨some 0, some 0, some 10000, some 9000⟩
    600 (by decide)).trans (by decide)

/-- Claim C5: the voltage-range filter hides every node whose nominal kV
lies strictly outside the inclusive range, and an edge whose two endpoint
nodes both resolve in the index is hidden exactly when both endpoints are
hidden. -/
theorem voltageFilter_hiding :
    (∀ (m : List (String × ℚ)) (minKv maxKv : ℚ) (vlId : String) (kv : ℚ),
       alookup m vlId = some kv → (kv < minKv ∨ maxKv < kv) →
       nodeDisplayNone m minKv maxKv vlId = true) ∧
    (∀ (m : List (String × ℚ)) (minKv maxKv : ℚ)
        (nbs : List (String × NodeMeta)) (e : EdgeMeta) (n1 n2 : NodeMeta),
       alookup nbs e.node1 = some n1 → alookup nbs e.node2 = some n2 →
       (edgeDisplayNone m minKv maxKv nbs e = true ↔
         (nodeDisplayNone m minKv maxKv n1.equipmentId = true ∧
          nodeDisplayNone m minKv maxKv n2.equipmentId = true))) := by
  constructor
  · intro m minKv maxKv vlId kv hl hout
    have hnot : ¬ (minKv ≤ kv ∧ kv ≤ maxKv) := by
      rcases hout with h | h <;> rintro ⟨ha, hb⟩ <;> linarith
    simp [nodeDisplayNone, isInRange, hl, hnot]
  · intro m minKv maxKv nbs e n1 n2 h1 h2
    simp [edgeDisplayNone, nodeDisplayNone, h1, h2]

/-- Witness for C5: with the mapping `VL1 : 63, VL2 : 225` and the range
`[90, 400]`, the node `VL1` is hidden, and the edge between the two is
visible because one endpoint is in range, matching the conjunction of the
endpoint states. -/
theorem voltageFilter_hiding_witness :
    nodeDisplayNone [("VL1", 63), ("VL2", 225)] 90 400 "VL1" = true ∧
    (edgeDisplayNone [("VL1", 63), ("VL2", 225)] 90 400
        [("s1", ⟨"VL1", "s1", 0, 0, none, none⟩),
         ("s2", ⟨"VL2", "s2", 1, 1, none, none⟩)]
        ⟨"E1", "e1", "s1", "s2", none, none⟩ = true ↔
      (nodeDisplayNone [("VL1", 63), ("VL2", 225)] 90 400 "VL1" = true ∧
       nodeDisplayNone [("VL1", 63), ("VL2", 225)] 90 400 "VL2" = true)) :=
  ⟨voltageFilter_hiding.1 [("VL1", 63), ("VL2", 225)] 90 400 "VL1" 63
      (by decide) (Or.inl (by norm_num)),
   voltageFilter_hiding.2 [("VL1", 63), ("VL2", 225)] 90 400
      [("s1", ⟨"VL1", "s1", 0, 0, none, none⟩),
       ("s2", ⟨"VL2", "s2", 1, 1, none, none⟩)]
      ⟨"E1", "e1", "s1", "s2", none, none⟩
      ⟨"VL1", "s1", 0, 0, none, none⟩ ⟨"VL2", "s2", 1, 1, none, none⟩
      (by decide) (by decide)⟩

/-- Claim C10: `processSvg` performs no numeric validation of a found
four-token declaration: a declaration with a negative third and fourth
number yields a non-null rectangle whose width is not positive, violating
the rectangle invariant at the public interface, and a declaration of four
non-numeric tokens yields a non-null rectangle with all four fields NaN. -/
theorem processSvg_accepts_invalid_numbers :
    (processSvg "<svg viewBox=\"0 0 -5 -7\"/>".toList 0).viewBox
      = some ⟨some 0, some 0, some (-5), some (-7)⟩ ∧
    (-5 : ℚ) ≤ 0 ∧ (-7 : ℚ) ≤ 0 ∧
    (processSvg "<svg viewBox=\"a b c d\"/>".toList 0).viewBox
      = some ⟨none, none, none, none⟩ := by
  refine ⟨by decide, by decide, by decide, by decide⟩

/-- The delta-overlay cache invariant tying a rendered label to its
original: either the cache attribute is absent and the text is the
original text, or the cache attribute holds the original text. -/
def LabelInv (o c : TextEl) : Prop :=
  (c.origText = none ∧ c.text = o.text) ∨ c.origText = some o.text

/-- A container-level lift of the cache invariant: element by element, the
labels of the current container are related to the labels of the original
container. -/
def ContInv (oc cc : List DomEl) : Prop :=
  List.Forall₂ (fun o c => List.Forall₂ LabelInv o.labels c.labels) oc cc

/-- Overwriting a label with a delta string preserves the cache
invariant: the original text ends up cached either way. -/
theorem labelInv_overwrite (d : String) {o c : TextEl} (h : LabelInv o c) :
    LabelInv o (overwriteTextEl d c) := by
  rcases h with ⟨h1, h2⟩ | h1
  · exact Or.inr (by simp [overwriteTextEl, h1, h2])
  · exact Or.inr (by simp [overwriteTextEl, h1])

/-- Restoring a label preserves the cache invariant. -/
theorem labelInv_restore {o c : TextEl} (h : LabelInv o c) :
    LabelInv o (restoreTextEl c) := by
  rcases h with ⟨h1, h2⟩ | h1
  · exact Or.inl (by simp [restoreTextEl, h1, h2])
  · exact Or.inl (by simp [restoreTextEl, h1])

/-- Mapping an invariant-preserving label transformation across the label
list preserves the lifted invariant. -/
theorem forall2_label_map {g : TextEl → TextEl}
    (hg : ∀ o c, LabelInv o c → LabelInv o (g c))
    {l l' : List TextEl} (h : List.Forall₂ LabelInv l l') :
    List.Forall₂ LabelInv l (l'.map g) := by
  induction h with
  | nil => exact List.Forall₂.nil
  | cons ha hrest ih => exact List.Forall₂.cons (hg _ _ ha) ih

/-- Mapping an element transformation that preserves the per-element label
invariant across the container preserves the container invariant. -/
theorem contInv_map {f : DomEl → DomEl}
    (hf : ∀ (o c : DomEl), List.Forall₂ LabelInv o.labels c.labels →
        List.Forall₂ LabelInv o.labels (f c).labels)
    {a b : List DomEl} (h : ContInv a b) : ContInv a (b.map f) := by
  induction h with
  | nil => exact List.Forall₂.nil
  | cons ha hrest ih => exact List.Forall₂.cons (hf _ _ ha) ih

/-- Updating the labels of the elements with a given id by an
invariant-preserving transformation preserves the container invariant. -/
theorem contInv_updateEl {g : TextEl → TextEl}
    (hg : ∀ o c, LabelInv o c → LabelInv o (g c)) (tid : String)
    {a b : List DomEl} (h : ContInv a b) :
    ContInv a
      (updateEl (fun e => { e with labels := e.labels.map g }) tid b) := by
  unfold updateEl
  refine contInv_map ?_ h
  intro o c hoc
  by_cases hid : c.id = tid
  · simp only [hid, if_pos]
    exact forall2_label_map hg hoc
  · simp only [hid, if_neg, ite_false]
    exact hoc

/-- `classList.add` does not touch the labels below an element. -/
theorem addClass_labels (c : String) (e : DomEl) :
    (addClass c e).labels = e.labels := by
  unfold addClass
  by_cases h : c ∈ e.classes <;> simp [h]

/-- Adding a class to the elements with a given id preserves the container
invariant. -/
theorem contInv_addClass (cls tid : String) {a b : List DomEl}
    (h : ContInv a b) : ContInv a (updateEl (addClass cls) tid b) := by
  unfold updateEl
  refine contInv_map ?_ h
  intro o c hoc
  by_cases hid : c.id = tid
  · simp only [hid, if_pos, addClass_labels]
    exact hoc
  · simp only [hid, if_neg, ite_false]
    exact hoc

/-- The per-label overwrite fold over the label-element ids preserves the
container invariant. -/
theorem contInv_foldl_ids (d : String) (ids : List String) :
    ∀ {a b : List DomEl}, ContInv a b →
      ContInv a (ids.foldl
        (fun c iid =>
          updateEl (fun e => { e with labels := e.labels.map (overwriteTextEl d) })
            iid c) b) := by
  induction ids with
  | nil => intro a b h; exact h
  | cons i rest ih =>
    intro a b h
    exact ih (contInv_updateEl (fun _ _ hh => labelInv_overwrite d hh) i h)

/-- One flow-delta iteration preserves the container invariant. -/
theorem contInv_applyDeltaEntry (edges : List (String × EdgeMeta))
    (entry : String × DeltaInfo) {a b : List DomEl} (h : ContInv a b) :
    ContInv a (applyDeltaEntry edges b entry) := by
  unfold applyDeltaEntry
  split
  · exact h
  · split
    · exact h
    · refine contInv_foldl_ids _ _ ?_
      split
      · exact contInv_addClass _ _ h
      · exact h

/-- The whole flow-delta loop preserves the container invariant. -/
theorem contInv_foldl_entries (edges : List (String × EdgeMeta))
    (entries : List (String × DeltaInfo)) :
    ∀ {a b : List DomEl}, ContInv a b →
      ContInv a (entries.foldl (applyDeltaEntry edges) b) := by
  induction entries with
  | nil => intro a b h; exact h
  | cons en rest ih =>
    intro a b h
    exact ih (contInv_applyDeltaEntry edges en h)

/-- A label list with no cache attributes is invariant-related to
itself. -/
theorem forall2_label_refl {l : List TextEl}
    (hl : ∀ t ∈ l, t.origText = none) : List.Forall₂ LabelInv l l := by
  induction l with
  | nil => exact List.Forall₂.nil
  | cons t rest ih =>
    exact List.Forall₂.cons (Or.inl ⟨hl t (by simp), rfl⟩)
      (ih (fun x hx => hl x (by simp [hx])))

/-- A container with no cache attributes is invariant-related to itself. -/
theorem contInv_refl_of_clean {c : List DomEl}
    (hc : ∀ e ∈ c, ∀ t ∈ e.labels, t.origText = none) : ContInv c c := by
  induction c with
  | nil => exact List.Forall₂.nil
  | cons e rest ih =>
    exact List.Forall₂.cons (forall2_label_refl (hc e (by simp)))
      (ih (fun x hx => hc x (by simp [hx])))

/-- Restoring a label related to a cache-free original recovers the
original exactly. -/
theorem restore_eq_of_inv {o c : TextEl} (ho : o.origText = none)
    (h : LabelInv o c) : restoreTextEl c = o := by
  obtain ⟨ct, co⟩ := c
  obtain ⟨ot, oo⟩ := o
  simp only at ho
  subst ho
  rcases h with ⟨h1, h2⟩ | h1
  · simp only at h1 h2
    subst h1
    subst h2
    rfl
  · simp only at h1
    subst h1
    rfl

/-- Restoring a label list related to a cache-free original recovers the
original list exactly. -/
theorem map_restore_eq_of_inv {lo lc : List TextEl}
    (ho : ∀ t ∈ lo, t.origText = none)
    (h : List.Forall₂ LabelInv lo lc) : lc.map restoreTextEl = lo := by
  induction h with
  | nil => rfl
  | cons ha hrest ih =>
    simp only [List.map_cons]
    rw [restore_eq_of_inv (ho _ (by simp)) ha,
      ih (fun t ht => ho t (by simp [ht]))]

/-- After the restore pass, a container related to a cache-free original
carries exactly the original labels. -/
theorem contInv_final_labels {a b : List DomEl}
    (ha : ∀ e ∈ a, ∀ t ∈ e.labels, t.origText = none)
    (h : ContInv a b) :
    (b.map (fun e => { e with labels := e.labels.map restoreTextEl })).map
        (fun e => e.labels)
      = a.map (fun e => e.labels) := by
  induction h with
  | nil => rfl
  | cons h1 h2 ih =>
    simp only [List.map_cons]
    refine congrArg₂ List.cons ?_ (ih (fun e he => ha e (by simp [he])))
    exact map_restore_eq_of_inv (ha _ (by simp)) h1

/-- Counterexample to claim C8 as stated: for a container carrying a stale
cache attribute (text `B`, cached value `A`), turning delta mode on and
then off does not act as the identity on label text — the initial restore
pass of the first call replaces `B` by the cached `A`, and the composition
returns text `A`. -/
theorem applyDeltaVisuals_stale_counterexample :
    (applyDeltaVisuals (applyDeltaVisuals
        (some [⟨"L", [], [⟨"B", some "A"⟩]⟩]) (some ⟨some []⟩)
        (some emptyIndex) true) (some ⟨some []⟩) (some emptyIndex)
        false).map (fun l => l.map (fun e => e.labels))
      = some [[⟨"A", none⟩]] ∧
    ([⟨"L", [], [⟨"B", some "A"⟩]⟩] : List DomEl).map (fun e => e.labels)
      = [[⟨"B", some "A"⟩]] := by
  refine ⟨by decide, by decide⟩

/-- Claim C8, amended: on a container whose labels carry no pre-existing
cache attribute, applying the delta overlay with delta mode on (which
caches each affected label once before overwriting it) and then with delta
mode off restores every label text verbatim and removes the cache, so the
composition is the identity on label text. For arbitrary container states
the composition instead restores each affected label to its value
immediately after the initial restore pass — its value just before the
overwrite — which can differ from the entry value when a stale cache
attribute was present. -/
theorem applyDeltaVisuals_some_eq (cont : List DomEl) (diag : DiagramDelta)
    (mi : MetadataIndex) (mode : Bool) :
    applyDeltaVisuals (some cont) (some diag) (some mi) mode
      = (if mode = false ∨ diag.flow_deltas = none
         then some ((cont.map removeDeltaClasses).map
            (fun e => { e with labels := e.labels.map restoreTextEl }))
         else some ((diag.flow_deltas.getD []).foldl
            (applyDeltaEntry mi.edgesByEquipmentId)
            ((cont.map removeDeltaClasses).map
              (fun e => { e with labels := e.labels.map restoreTextEl })))) :=
  rfl

theorem applyDeltaVisuals_round_trip (cont : List DomEl) (diag : DiagramDelta)
    (mi : MetadataIndex)
    (hclean : ∀ e ∈ cont, ∀ t ∈ e.labels, t.origText = none) :
    (applyDeltaVisuals
        (applyDeltaVisuals (some cont) (some diag) (some mi) true)
        (some diag) (some mi) false).map (fun l => l.map (fun e => e.labels))
      = some (cont.map (fun e => e.labels)) := by
  have hrm : ∀ {a b : List DomEl}, ContInv a b →
      ContInv a (b.map removeDeltaClasses) := by
    intro a b h
    refine contInv_map ?_ h
    intro o c hoc
    exact hoc
  have hrs : ∀ {a b : List DomEl}, ContInv a b →
      ContInv a (b.map
        (fun e => { e with labels := e.labels.map restoreTextEl })) := by
    intro a b h
    refine contInv_map ?_ h
    intro o c hoc
    exact forall2_label_map (fun _ _ hh => labelInv_restore hh) hoc
  have hbase : ContInv cont cont := contInv_refl_of_clean hclean
  have hc2 : ContInv cont
      ((cont.map removeDeltaClasses).map
        (fun e => { e with labels := e.labels.map restoreTextEl })) :=
    hrs (hrm hbase)
  have hfinish : ∀ (mid : List DomEl), ContInv cont mid →
      (applyDeltaVisuals (some mid) (some diag) (some mi) false).map
          (fun l => l.map (fun e => e.labels))
        = some (cont.map (fun e => e.labels)) := by
    intro mid hmidinv
    rw [applyDeltaVisuals_some_eq, if_pos (Or.inl rfl), Option.map_some',
      Option.some_inj]
    exact contInv_final_labels hclean (hrm hmidinv)
  rw [applyDeltaVisuals_some_eq]
  by_cases hfd : diag.flow_deltas = none
  · rw [if_pos (Or.inr hfd)]
    exact hfinish _ hc2
  · rw [if_neg (by simp [hfd])]
    exact hfinish _ (contInv_foldl_entries _ _ hc2)

/-- Witness for the amended C8: a cache-free container with one edge and
one label element round-trips to its original label texts under a real
flow-delta entry. -/
theorem applyDeltaVisuals_round_trip_witness :
    (applyDeltaVisuals
        (applyDeltaVisuals
          (some [⟨"e1", [], []⟩, ⟨"i1", [], [⟨"12.3", none⟩]⟩])
          (some ⟨some [("E1", ⟨5 / 2, "positive"⟩)]⟩)
          (some ⟨[], [], [("E1", ⟨"E1", "e1", "s1", "s2", some ⟨"i1"⟩, none⟩)], []⟩)
          true)
        (some ⟨some [("E1", ⟨5 / 2, "positive"⟩)]⟩)
        (some ⟨[], [], [("E1", ⟨"E1", "e1", "s1", "s2", some ⟨"i1"⟩, none⟩)], []⟩)
        false).map (fun l => l.map (fun e => e.labels))
      = some (([⟨"e1", [], []⟩, ⟨"i1", [], [⟨"12.3", none⟩]⟩] : List DomEl).map
          (fun e => e.labels)) :=
  applyDeltaVisuals_round_trip
    [⟨"e1", [], []⟩, ⟨"i1", [], [⟨"12.3", none⟩]⟩]
    ⟨some [("E1", ⟨5 / 2, "positive"⟩)]⟩
    ⟨[], [], [("E1", ⟨"E1", "e1", "s1", "s2", some ⟨"i1"⟩, none⟩)], []⟩
    (by decide)
